import Mathlib

/-!
Verification development for the `FileListProcessor_Semantic_Segmentation`
data pipeline of `DataProvider_input_pipeline.py` (DeepLearningTools).

A pixel value of the float tensors is modelled as `Option ℚ`: `some q` is an
ordinary finite float value and `none` models IEEE NaN.  An image tensor of
shape (H, W, C) is a list of H rows, each a list of W pixels, each a list of
C channel values.  The numeric kernels of the TensorFlow photometric library
ops (per-image standardization, stateless brightness / saturation / contrast,
dtype casting) are parameters of the embedding: the claims under study only
concern which channels those ops act on and how the chains are composed, never
the float arithmetic inside a single op.
-/

/-- A float value: `none` models IEEE NaN. -/
abbrev Val : Type := Option ℚ

/-- One pixel: its list of channel values. -/
abbrev Pixel : Type := List Val

/-- An image tensor of shape (H, W, C): rows of pixels of channel values. -/
abbrev Image (α : Type) : Type := List (List (List α))

/-- A stateless-op seed pair, as produced by `rng.make_seeds(2)[0]`. -/
abbrev Seed : Type := ℕ × ℕ

/-- The process-global stateful random stream consumed by unseeded
`tf.random.uniform` calls. -/
abbrev GRand : Type := ℕ → ℕ

/-- Models `tf.slice(img, begin=[0,0,b], size=[-1,-1,len])`: keep `len`
channels starting at channel `b` of every pixel. -/
def sliceChannels {α : Type} (img : Image α) (b len : ℕ) : Image α :=
  img.map (fun row => row.map (fun px => (px.drop b).take len))

/-- Models `tf.concat([a, b], axis=2)`: concatenate the channel lists of
positionally corresponding pixels. -/
def concatChannels {α : Type} (a b : Image α) : Image α :=
  List.zipWith (List.zipWith (fun p q => p ++ q)) a b

/-- Apply a scalar function to every channel value of every pixel. -/
def mapVals {α β : Type} (f : α → β) (img : Image α) : Image β :=
  img.map (fun row => row.map (fun px => px.map f))

/-- The tensor of shape (h, w, d): `h` rows, each of `w` pixels, each pixel
carrying `d` channel values. -/
def rect {α : Type} (img : Image α) (h w d : ℕ) : Prop :=
  img.length = h ∧ (∀ row ∈ img, row.length = w) ∧
    (∀ row ∈ img, ∀ px ∈ row, px.length = d)

/-!  Filter chain (`_crop_filter`): the active body of the Python method is

    filter_ok=True
    for i in range(self.nb_filters):
      filter_ok&= self.additionnal_filters[i](crop)
    return filter_ok
-/

/-- The crop filter of `_crop_filter`: fold the conjunction of every
predicate of the chain over the crop, starting from `True`. -/
def crop_filter {α : Type} (filters : List (α → Bool)) (crop : α) : Bool :=
  filters.foldl (fun filter_ok f => filter_ok && f crop) true

/-- Folding `&&` of the predicates from any accumulator. -/
theorem crop_filter_foldl {α : Type} (filters : List (α → Bool)) (crop : α)
    (acc : Bool) :
    filters.foldl (fun filter_ok f => filter_ok && f crop) acc
      = (acc && filters.all (fun f => f crop)) := by
  induction filters generalizing acc with
  | nil => simp
  | cons f t ih =>
      simp only [List.foldl_cons, List.all_cons, ih, Bool.and_assoc]

/-- The filter chain is the conjunction of its predicates. -/
theorem crop_filter_eq_all {α : Type} (filters : List (α → Bool)) (crop : α) :
    crop_filter filters crop = filters.all (fun f => f crop) := by
  simpa using crop_filter_foldl filters crop true

/-- C5: the filter chain accepts a crop iff every predicate of the chain
accepts it (it computes the conjunction of the predicates), an empty chain
accepts every crop, and a permutation of the chain accepts exactly the same
crops. -/
theorem filter_chain_is_commutative_and (l l' : List (Image Val → Bool))
    (crop : Image Val) (hperm : l.Perm l') :
    crop_filter l crop = l.all (fun f => f crop) ∧
      crop_filter ([] : List (Image Val → Bool)) crop = true ∧
      crop_filter l crop = crop_filter l' crop := by
  refine ⟨crop_filter_eq_all l crop, rfl, ?_⟩
  rw [crop_filter_eq_all, crop_filter_eq_all]
  cases h : l'.all (fun f => f crop) with
  | true =>
      rw [List.all_eq_true] at h ⊢
      intro f hf
      exact h f (hperm.mem_iff.mp hf)
  | false =>
      rw [List.all_eq_false] at h ⊢
      obtain ⟨f, hf, hval⟩ := h
      exact ⟨f, hperm.mem_iff.mpr hf, hval⟩

/-- Witness for C5 on a concrete two-element chain and its transposition. -/
theorem filter_chain_is_commutative_and_witness :
    crop_filter [fun (_ : Image Val) => true, fun _ => false] []
        = List.all [fun (_ : Image Val) => true, fun _ => false]
          (fun f => f []) ∧
      crop_filter ([] : List (Image Val → Bool)) [] = true ∧
      crop_filter [fun (_ : Image Val) => true, fun _ => false] []
        = crop_filter [fun (_ : Image Val) => false, fun _ => true] [] :=
  filter_chain_is_commutative_and
    [fun _ => true, fun _ => false] [fun _ => false, fun _ => true] []
    (List.Perm.swap (fun _ => false) (fun _ => true) [])

/-!  Sample geometry planner (`_generate_crops` / `crops_dataset`).

Random mode (`shuffle_samples=True`):

    nbPatches = cast_int32(coverage * float(H*W) / float(patchSize*patchSize))
    nbPatches = minimum(nbPatches, max_patches_per_image)
    top_coord  = random.uniform([nbPatches], 0, H - patchSize)   -- maxval exclusive
    left_coord = random.uniform([nbPatches], 0, W - patchSize)

The float-to-int32 cast truncates toward zero; the operands are nonnegative,
so it is the floor.  `tf.random.uniform` with an integer dtype requires
`minval < maxval` and draws from the half-open range `[0, H - patchSize)`;
the draws are modelled by arbitrary streams reduced modulo the range width,
and the op's failure when `H ≤ patchSize` (or the patch count is negative)
is modelled by `none`.

Deterministic grid mode (`shuffle_samples=False`):

    top_coord  = range(0, H - patchSize, patchSize - 2*radius_of_view)
    left_coord = range(0, W - patchSize, patchSize - 2*radius_of_view)
    meshgrid + flatten

`tf.range(0, limit, delta)` with `delta > 0` enumerates the multiples of
`delta` strictly below `limit`; a nonpositive `delta` is an error (or an
empty result), modelled by the empty list.
-/

/-- The random-mode patch count of `crops_dataset`:
`min(int(coverage * H*W / patchSize^2), max_patches_per_image)`. -/
def nbPatchesRandom (coverage : ℚ) (H W patchSize : ℕ) (max_patches : ℤ) : ℤ :=
  min ⌊coverage * ((H : ℚ) * (W : ℚ)) / ((patchSize : ℚ) * (patchSize : ℚ))⌋
    max_patches

/-- Random-mode crop boxes: `nbPatchesRandom` pairs `(top, left)` drawn
uniformly from `[0, H - patchSize) × [0, W - patchSize)`; the uniform draws
are modelled by the streams `rt, rl` reduced modulo the range width.  `none`
models the runtime failure of `tf.random.uniform` on an empty or negative
range. -/
def randomCropBoxes (coverage : ℚ) (H W patchSize : ℕ) (max_patches : ℤ)
    (rt rl : ℕ → ℕ) : Option (List (ℕ × ℕ)) :=
  let nb := nbPatchesRandom coverage H W patchSize max_patches
  if patchSize < H ∧ patchSize < W ∧ 0 ≤ nb then
    some ((List.range nb.toNat).map
      (fun i => (rt i % (H - patchSize), rl i % (W - patchSize))))
  else none

/-- Models `tf.range(0, limit, delta)` for an integer `delta`: the multiples
of `delta` strictly below `limit` when `delta > 0`, empty otherwise. -/
def tfRange (limit : ℕ) (delta : ℤ) : List ℕ :=
  if delta ≤ 0 then []
  else (List.range ((limit + delta.toNat - 1) / delta.toNat)).map
    (fun i => i * delta.toNat)

/-- Deterministic-mode crop boxes: the meshgrid of
`tf.range(0, H - patchSize, stride)` and `tf.range(0, W - patchSize, stride)`
with `stride = patchSize - 2*radius_of_view`, flattened to all `(top, left)`
pairs (the meshgrid enumerates `(top j, left i)` over every index pair). -/
def gridCropBoxes (H W patchSize radius_of_view : ℕ) : List (ℕ × ℕ) :=
  let stride : ℤ := (patchSize : ℤ) - 2 * (radius_of_view : ℤ)
  let top_coord := tfRange (H - patchSize) stride
  let left_coord := tfRange (W - patchSize) stride
  (left_coord.product top_coord).map (fun p => (p.2, p.1))

/-- Every element of `tfRange limit delta` is strictly below `limit`. -/
theorem tfRange_lt (limit : ℕ) (delta : ℤ) :
    ∀ x ∈ tfRange limit delta, x < limit := by
  intro x hx
  unfold tfRange at hx
  split at hx
  · simp at hx
  · rename_i hpos
    obtain ⟨i, hi, rfl⟩ := List.mem_map.mp hx
    rw [List.mem_range] at hi
    have hd : 1 ≤ delta.toNat := by omega
    have h1 : (i + 1) * delta.toNat
        ≤ ((limit + delta.toNat - 1) / delta.toNat) * delta.toNat :=
      Nat.mul_le_mul_right _ (by omega)
    have h2 : ((limit + delta.toNat - 1) / delta.toNat) * delta.toNat
        ≤ limit + delta.toNat - 1 := Nat.div_mul_le_self _ _
    have h3 : i * delta.toNat + delta.toNat ≤ limit + delta.toNat - 1 := by
      calc i * delta.toNat + delta.toNat = (i + 1) * delta.toNat := by ring
        _ ≤ _ := le_trans h1 h2
    omega

/-- C4: with `patchSize ≤ min(H, W)`, every bounding box produced by the
geometry planner, in random mode (whenever the random op succeeds) as well as
in deterministic grid mode, satisfies `0 ≤ top ≤ H - patchSize` and
`0 ≤ left ≤ W - patchSize`. -/
theorem generated_box_in_bounds (coverage : ℚ) (H W patchSize : ℕ)
    (max_patches : ℤ) (rt rl : ℕ → ℕ) (radius_of_view : ℕ)
    (bs : List (ℕ × ℕ)) (b : ℕ × ℕ)
    (hH : patchSize ≤ H) (hW : patchSize ≤ W)
    (hb : (randomCropBoxes coverage H W patchSize max_patches rt rl = some bs
            ∧ b ∈ bs)
          ∨ b ∈ gridCropBoxes H W patchSize radius_of_view) :
    0 ≤ (b.1 : ℤ) ∧ (b.1 : ℤ) ≤ (H : ℤ) - (patchSize : ℤ) ∧
      0 ≤ (b.2 : ℤ) ∧ (b.2 : ℤ) ≤ (W : ℤ) - (patchSize : ℤ) := by
  have hbounds : b.1 ≤ H - patchSize ∧ b.2 ≤ W - patchSize := by
    rcases hb with ⟨hsome, hmem⟩ | hgrid
    · simp only [randomCropBoxes] at hsome
      split at hsome
      · rename_i hcond
        obtain ⟨hpsH, hpsW, _⟩ := hcond
        obtain rfl := Option.some.inj hsome
        obtain ⟨i, _, rfl⟩ := List.mem_map.mp hmem
        constructor
        · exact le_of_lt (Nat.mod_lt _ (by omega))
        · exact le_of_lt (Nat.mod_lt _ (by omega))
      · simp at hsome
    · unfold gridCropBoxes at hgrid
      obtain ⟨p, hp, rfl⟩ := List.mem_map.mp hgrid
      have hmem := List.mem_product.mp hp
      constructor
      · exact le_of_lt (tfRange_lt _ _ _ hmem.2)
      · exact le_of_lt (tfRange_lt _ _ _ hmem.1)
  refine ⟨Int.ofNat_nonneg _, ?_, Int.ofNat_nonneg _, ?_⟩ <;> omega

/-- Witness for C4: the grid box (0, 3) of a 5×7 image with patch size 3. -/
theorem generated_box_in_bounds_witness :
    (0 : ℤ) ≤ ((0 : ℕ) : ℤ) ∧ ((0 : ℕ) : ℤ) ≤ ((5 : ℕ) : ℤ) - ((3 : ℕ) : ℤ) ∧
      (0 : ℤ) ≤ ((3 : ℕ) : ℤ) ∧
      ((3 : ℕ) : ℤ) ≤ ((7 : ℕ) : ℤ) - ((3 : ℕ) : ℤ) :=
  generated_box_in_bounds 1 5 7 3 10 id id 0 [] (0, 3)
    (by decide) (by decide) (Or.inr (by decide))

/-- The crop count demanded by the specification sentence for random mode
(written from the spec's words, for comparison with `nbPatchesRandom`):
`clamp(round(coverage * H*W / patchSize^2), 1, max_patches_per_image)`. -/
def specRandomCropCount (coverage : ℚ) (H W patchSize : ℕ)
    (max_patches : ℤ) : ℤ :=
  min (max (round (coverage * ((H : ℚ) * (W : ℚ))
    / ((patchSize : ℚ) * (patchSize : ℚ)))) 1) max_patches

/-- Counterexample to C1 as stated: for a 20×20 image, patch size 10,
coverage factor 1/10 and max 10 patches, the code generates
`min(int(0.4), 10) = 0` crop boxes while the spec formula demands
`clamp(round(0.4), 1, 10) = 1`; in particular the generated count is not
at least 1. -/
theorem random_crop_count_claim_false :
    ¬ ((((randomCropBoxes (1/10) 20 20 10 10 id id).getD []).length : ℤ)
          = specRandomCropCount (1/10) 20 20 10 10
        ∧ 1 ≤ ((randomCropBoxes (1/10) 20 20 10 10 id id).getD []).length) := by
  have hval :
      (1/10 : ℚ) * (((20 : ℕ) : ℚ) * ((20 : ℕ) : ℚ))
        / (((10 : ℕ) : ℚ) * ((10 : ℕ) : ℚ)) = 2/5 := by
    norm_num
  have hboxes : randomCropBoxes (1/10) 20 20 10 10 id id = some [] := by
    simp only [randomCropBoxes, nbPatchesRandom, hval]
    norm_num
  have hspec : specRandomCropCount (1/10) 20 20 10 10 = 1 := by
    simp only [specRandomCropCount, hval]
    norm_num [round_eq]
  rintro ⟨h1, h2⟩
  rw [hboxes] at h1 h2
  rw [hspec] at h1
  simp at h1

/-- C1 amended: in random mode the number of generated crop boxes equals
`min(int(coverage * H*W / patchSize^2), max_patches_per_image)` — the
fractional part is truncated, not rounded, and there is no lower clamp to 1,
so the count can be 0. -/
theorem random_crop_count_eq_min_floor (coverage : ℚ) (H W patchSize : ℕ)
    (max_patches : ℤ) (rt rl : ℕ → ℕ)
    (hH : patchSize < H) (hW : patchSize < W)
    (hnb : 0 ≤ nbPatchesRandom coverage H W patchSize max_patches) :
    (((randomCropBoxes coverage H W patchSize max_patches rt rl).getD
        []).length : ℤ)
      = min ⌊coverage * ((H : ℚ) * (W : ℚ))
          / ((patchSize : ℚ) * (patchSize : ℚ))⌋ max_patches := by
  simp only [randomCropBoxes, if_pos (And.intro hH (And.intro hW hnb)),
    Option.getD_some, List.length_map, List.length_range]
  exact Int.toNat_of_nonneg hnb

/-- Witness for C1 amended: a 20×20 image, patch size 10, coverage 2 and
max 3 gives min(int(8.0), 3) = 3 crop boxes. -/
theorem random_crop_count_eq_min_floor_witness :
    (((randomCropBoxes 2 20 20 10 3 id id).getD []).length : ℤ)
      = min ⌊(2 : ℚ) * (((20 : ℕ) : ℚ) * ((20 : ℕ) : ℚ))
          / (((10 : ℕ) : ℚ) * ((10 : ℕ) : ℚ))⌋ 3 :=
  random_crop_count_eq_min_floor 2 20 20 10 3 id id
    (by decide) (by decide) (by norm_num [nbPatchesRandom])

/-!  Entropy-based class balancing (`normalised_entropy`,
`get_sample_entropy_int`, `balance_classes_entropy`).  These functions
compute with `tf.math.log`, so they are embedded over the real numbers. -/

/-- Bin index assigned by
`tf.histogram_fixed_width(values, value_range=[0, 255], nbins=256)`:
the scaled bin index clipped into `[0, 255]`, which for integer inputs is the
value itself clamped into the range. -/
def tf_histogram_bin (v : ℤ) : ℕ := (min (max v 0) 255).toNat

/-- Models `tf.histogram_fixed_width(tf.cast(sample, int32), [0, 255], 256)`
of `get_sample_entropy_int`: per-bin occurrence counts of the sample. -/
def histogram_fixed_width (sample : List ℤ) : List ℕ :=
  (List.range 256).map
    (fun b => (sample.filter (fun v => tf_histogram_bin v == b)).length)

/-- Models `normalised_entropy(counts)`:

    classes_prob = counts / sum(counts)
    entropy = -sum(classes_prob * log(classes_prob + 0.001))
    return entropy / log(0.001 + count_nonzero(counts)) -/
noncomputable def normalised_entropy (counts : List ℕ) : ℝ :=
  let classes_prob : List ℝ :=
    counts.map (fun (c : ℕ) => (c : ℝ) / ((counts.sum : ℕ) : ℝ))
  let entropy : ℝ :=
    -((classes_prob.map (fun p => p * Real.log (p + 0.001))).sum)
  entropy / Real.log (0.001 + ((counts.filter (fun c => c != 0)).length : ℝ))

/-- Models `get_sample_entropy_int(sample)`: the normalized entropy of the
fixed-width histogram of the (flattened, int-cast) sample. -/
noncomputable def get_sample_entropy_int (sample : List ℤ) : ℝ :=
  normalised_entropy (histogram_fixed_width sample)

/-- Python/TensorFlow float-to-int conversion (truncation toward zero).  NaN
has no defined integer cast; it is mapped to 0 here, which is irrelevant to
the claims (they concern NaN-free reference channels). -/
def val_to_int (v : Val) : ℤ :=
  match v with
  | none => 0
  | some q => if 0 ≤ q then ⌊q⌋ else ⌈q⌉

/-- Models `tf.reshape(ref_slice, [-1])` composed with the int cast: the
flattened list of reference values of a crop slice. -/
def flatten_int (img : Image Val) : List ℤ :=
  (img.map (fun row => (row.map (fun px => px.map val_to_int)).flatten)).flatten

/-- Models the `balance_classes_entropy` crop filter: accept a crop iff the
normalized entropy of the histogram of its reference-channel slice strictly
exceeds the configured threshold. -/
noncomputable def balance_classes_entropy (raw_depth ref_depth : ℕ)
    (threshold : ℝ) (crop : Image Val) : Prop :=
  get_sample_entropy_int
      (flatten_int (sliceChannels crop raw_depth ref_depth))
    > threshold

/-- Filtering a replicated list keeps all of it or none of it. -/
theorem filter_replicate_eq {α : Type} (p : α → Bool) (n : ℕ) (a : α) :
    (List.replicate n a).filter p
      = if p a then List.replicate n a else [] := by
  induction n with
  | zero => cases h : p a <;> simp [h]
  | succ k ih =>
      cases h : p a <;>
        simp [List.replicate_succ, List.filter_cons, h, ih]

/-- The histogram of a constant sample is a one-hot vector at the sample's
bin, scaled by the sample length. -/
theorem histogram_replicate (n : ℕ) (c : ℤ) :
    histogram_fixed_width (List.replicate n c)
      = (List.range 256).map
          (fun b => if tf_histogram_bin c = b then n else 0) := by
  unfold histogram_fixed_width
  refine List.map_congr_left ?_
  intro b _
  rw [filter_replicate_eq]
  by_cases h : tf_histogram_bin c = b
  · simp [h]
  · simp [h]

/-- Summing a one-hot function over an initial segment. -/
theorem sum_map_range_ite {α : Type} [AddCommMonoid α] (m k : ℕ) (x : α) :
    (((List.range m).map (fun b => if k = b then x else 0)).sum)
      = if k < m then x else 0 := by
  induction m with
  | zero => simp
  | succ t ih =>
      have hsingle :
          ((List.map (fun b => if k = b then x else 0) [t]).sum)
            = if k = t then x else 0 := by simp
      rw [List.range_succ, List.map_append, List.sum_append, ih, hsingle]
      by_cases h1 : k < t
      · have h2 : k ≠ t := Nat.ne_of_lt h1
        simp [h1, h2, Nat.lt_succ_of_lt h1]
      · by_cases h2 : k = t
        · subst h2
          simp [h1, Nat.lt_succ_self]
        · have h3 : ¬ k < t + 1 := by omega
          simp [h1, h2, h3]

/-- A one-hot vector with a positive coordinate below the length has exactly
one nonzero entry. -/
theorem length_filter_onehot (m k n : ℕ) (hn : 0 < n) :
    ((((List.range m).map (fun b => if k = b then n else 0)).filter
        (fun c => c != 0)).length)
      = if k < m then 1 else 0 := by
  induction m with
  | zero => simp
  | succ t ih =>
      have hsingle :
          (((List.map (fun b => if k = b then n else 0) [t]).filter
              (fun c => c != 0)).length)
            = if k = t then 1 else 0 := by
        by_cases h : k = t
        · subst h
          simp [List.filter_cons, hn.ne']
        · simp [List.filter_cons, h]
      rw [List.range_succ, List.map_append, List.filter_append,
        List.length_append, ih, hsingle]
      by_cases h1 : k < t
      · have h2 : k ≠ t := Nat.ne_of_lt h1
        simp [h1, h2, Nat.lt_succ_of_lt h1]
      · by_cases h2 : k = t
        · subst h2
          simp [h1, Nat.lt_succ_self]
        · have h3 : ¬ k < t + 1 := by omega
          simp [h1, h2, h3]

/-- The code's ε-smoothed normalized entropy of a one-hot histogram is
exactly −log(1.001)/log(1.001) = −1 (not 0). -/
theorem normalised_entropy_onehot (k n : ℕ) (hk : k < 256) (hn : 0 < n) :
    normalised_entropy
        ((List.range 256).map (fun b => if k = b then n else 0))
      = -1 := by
  have hsum :
      (((List.range 256).map (fun b => if k = b then n else 0)).sum) = n := by
    rw [sum_map_range_ite]
    simp [hk]
  unfold normalised_entropy
  simp only [hsum, List.map_map]
  have hterm :
      ((List.range 256).map
          ((fun p => p * Real.log (p + 0.001)) ∘
            ((fun (c : ℕ) => (c : ℝ) / ((n : ℕ) : ℝ)) ∘
              (fun b => if k = b then n else 0))))
        = (List.range 256).map
            (fun b => if k = b then Real.log (1 + 0.001) else 0) := by
    refine List.map_congr_left ?_
    intro b _
    by_cases h : k = b
    · have hne : ((n : ℕ) : ℝ) ≠ 0 := Nat.cast_ne_zero.mpr hn.ne'
      simp [h, Function.comp, div_self hne]
    · simp [h, Function.comp]
  rw [hterm, sum_map_range_ite, if_pos hk, length_filter_onehot _ _ _ hn,
    if_pos hk]
  have h1001 : (0.001 : ℝ) + ((1 : ℕ) : ℝ) = 1 + 0.001 := by norm_num
  rw [h1001]
  have hlog : Real.log (1 + 0.001) ≠ 0 := by
    intro h
    rcases Real.log_eq_zero.mp h with h' | h' | h' <;> norm_num at h'
  rw [neg_div, div_self hlog]

/-- C3 amended: with class balancing enabled and a reference channel present,
a crop whose reference channel holds a single constant value has normalized
histogram entropy exactly −1 (the ε-smoothed formula of the code yields
−log(1.001)/log(1.001), not 0), and the entropy filter rejects that crop for
every configured threshold strictly greater than 0. -/
theorem constant_reference_entropy (crop : Image Val)
    (raw_depth ref_depth n : ℕ) (c : ℤ) (threshold : ℝ)
    (hflat : flatten_int (sliceChannels crop raw_depth ref_depth)
      = List.replicate n c)
    (hn : 0 < n) (hc0 : 0 ≤ c) (hc255 : c ≤ 255) (hth : 0 < threshold) :
    get_sample_entropy_int
        (flatten_int (sliceChannels crop raw_depth ref_depth)) = -1 ∧
      ¬ balance_classes_entropy raw_depth ref_depth threshold crop := by
  have hbin : tf_histogram_bin c = c.toNat := by
    unfold tf_histogram_bin
    congr 1
    omega
  have hk : c.toNat < 256 := by omega
  have hent : get_sample_entropy_int
      (flatten_int (sliceChannels crop raw_depth ref_depth)) = -1 := by
    rw [hflat]
    unfold get_sample_entropy_int
    rw [histogram_replicate, hbin]
    exact normalised_entropy_onehot c.toNat n hk hn
  refine ⟨hent, ?_⟩
  unfold balance_classes_entropy
  rw [hent]
  intro h
  linarith

/-- Counterexample to C3 as stated: a 1×1 crop whose single reference channel
is the constant 5 has computed normalized entropy −1, not 0. -/
theorem constant_reference_entropy_not_zero :
    get_sample_entropy_int
        (flatten_int (sliceChannels [[[some 0, some 5]]] 1 1)) ≠ 0 := by
  have hflat : flatten_int (sliceChannels [[[some 0, some 5]]] 1 1)
      = List.replicate 1 (5 : ℤ) := by
    norm_num [flatten_int, sliceChannels, val_to_int, List.replicate]
  have hent : get_sample_entropy_int
      (flatten_int (sliceChannels [[[some 0, some 5]]] 1 1)) = -1 := by
    rw [hflat]
    unfold get_sample_entropy_int
    rw [histogram_replicate]
    have hbin : tf_histogram_bin 5 = 5 := by decide
    rw [hbin]
    exact normalised_entropy_onehot 5 1 (by norm_num) (by norm_num)
  rw [hent]
  norm_num

/-- Witness for C3 amended: a 1×1 crop with constant reference value 7 and
threshold 1/2. -/
theorem constant_reference_entropy_witness :
    get_sample_entropy_int
        (flatten_int (sliceChannels [[[some 1, some 7]]] 1 1)) = -1 ∧
      ¬ balance_classes_entropy 1 1 (1/2) [[[some 1, some 7]]] :=
  constant_reference_entropy [[[some 1, some 7]]] 1 1 1 7 (1/2)
    (by norm_num [flatten_int, sliceChannels, val_to_int, List.replicate])
    (by norm_num) (by norm_num) (by norm_num) (by norm_num)

/-!  Transform chains (`_setup_image_transforms`, `_image_transform`) and
crop filters (`_setup_crop_filters`).

Pipeline configuration fields are those captured by `__init__`; the numeric
kernels of the TensorFlow photometric ops are collected in `TFKernels` (their
float arithmetic is opaque to the claims, which only concern shapes, channel
ranges and chain composition).  A transform takes the image, the per-crop
stateless seed pair and the process-global random stream, and returns the
transformed image together with the rest of the stream: stateless ops pass
the stream through untouched, while `random_rot90` — which calls
`tf.random.uniform` WITHOUT a seed — consumes it. -/

/-- The `manage_nan_values` constructor argument: `None`, `'zeros'` or
`'avoid'`. -/
inductive NanMode
  | noMode
  | zeros
  | avoid
deriving DecidableEq

/-- The pipeline configuration captured at construction. -/
structure PipelineConfig where
  shuffle_samples : Bool
  patch_ratio_vs_input : ℚ
  max_patches_per_image : ℤ
  image_area_coverage_factor : ℚ
  apply_random_flip_left_right : Bool
  apply_random_flip_up_down : Bool
  apply_random_rot90 : Bool
  apply_random_brightness : Option ℚ
  apply_random_saturation : Option ℚ
  apply_random_contrast : Option ℚ
  apply_whitening : Bool
  balance_classes_distribution : Bool
  field_of_view : ℤ
  manage_nan_values : NanMode
  no_reference : Bool
  single_image_raw_depth : ℕ
  single_image_reference_depth : ℕ
  crops_postprocess : Option (Image Val → Seed → Image Val)
  seed : ℕ

/-- The numeric kernels of the TensorFlow library ops used by the pipeline:
per-image standardization, stateless brightness (given `max_delta`),
stateless saturation and contrast (given `lower`, `upper`), and the dtype
cast.  Standardization, brightness and the cast are elementwise; saturation
and contrast transform one pixel's channel vector (contrast also reads the
whole image for its per-channel means). -/
structure TFKernels where
  std_k : Image Val → Val → Val
  bright_k : ℚ → Seed → Val → Val
  sat_k : ℚ → ℚ → Seed → Pixel → Pixel
  contr_k : ℚ → ℚ → Seed → Image Val → Pixel → Pixel
  cast_k : Val → Val

/-- One transform of a chain: image, per-crop seed pair, global random
stream in; image and remaining stream out. -/
abbrev ImgTransform : Type :=
  Image Val → Seed → GRand → Image Val × GRand

/-- Deterministic model of the coin the stateless flip ops derive from their
seed pair. -/
def coin_from_seed (seed : Seed) : Bool := (seed.1 + seed.2) % 2 == 0

/-- Replace NaN by 0, keep other values. -/
def nan_to_zero (v : Val) : Val :=
  match v with
  | none => some 0
  | some q => some q

/-- Models `replace_nans_by_zeros(sample)`:
`tf.where(tf.math.is_nan(sample), tf.zeros_like(sample), sample)`. -/
def replace_nans_by_zeros (sample : Image Val) : Image Val :=
  mapVals nan_to_zero sample

/-- The `replace_nans_by_zeros` entry of the label-transform chain
(stateless: ignores the seed, passes the global stream through). -/
def replace_nans_by_zeros_t : ImgTransform :=
  fun sample _ g => (replace_nans_by_zeros sample, g)

/-- Left-right flip: reverse each row. -/
def flip_left_right (img : Image Val) : Image Val := img.map List.reverse

/-- Up-down flip: reverse the row order. -/
def flip_up_down (img : Image Val) : Image Val := img.reverse

/-- Models `tf.image.stateless_random_flip_left_right`: flip iff the
seed-determined coin says so. -/
def stateless_random_flip_left_right_t : ImgTransform :=
  fun img seed g =>
    ((if coin_from_seed seed then flip_left_right img else img), g)

/-- Models `tf.image.stateless_random_flip_up_down`. -/
def stateless_random_flip_up_down_t : ImgTransform :=
  fun img seed g =>
    ((if coin_from_seed seed then flip_up_down img else img), g)

/-- Transpose of a rectangular row-major image (pixels untouched). -/
def transposeRect (m : Image Val) : Image Val :=
  match m with
  | [] => []
  | r :: _ => (List.range r.length).map (fun j => m.map (fun row => row.getD j []))

/-- One counter-clockwise quarter rotation, as `tf.image.rot90` with k=1. -/
def rot90_ccw (m : Image Val) : Image Val := (transposeRect m).reverse

/-- `tf.image.rot90(img, k)`: k counter-clockwise quarter rotations. -/
def rot90_pow : ℕ → Image Val → Image Val
  | 0, m => m
  | Nat.succ k, m => rot90_pow k (rot90_ccw m)

/-- Models the code's `random_rot90(img, seed)`: it IGNORES the `seed`
argument and draws the rotation count from an unseeded `tf.random.uniform`,
i.e. from the process-global stateful random stream, which it consumes. -/
def random_rot90_t : ImgTransform :=
  fun img _ g => (rot90_pow (g 0 % 4) img, fun i => g (i + 1))

/-- `_setup_image_transforms`: the Stage-A (label-preserving, whole
composite) transform list, in the code's registration order. -/
def setup_image_label_transforms (cfg : PipelineConfig) : List ImgTransform :=
  (if cfg.manage_nan_values = NanMode.zeros
    then [replace_nans_by_zeros_t] else [])
  ++ (if cfg.apply_random_flip_left_right
    then [stateless_random_flip_left_right_t] else [])
  ++ (if cfg.apply_random_flip_up_down
    then [stateless_random_flip_up_down_t] else [])
  ++ (if cfg.apply_random_rot90 then [random_rot90_t] else [])

/-- The `get_image_channels` entry of the pixels-transform chain: slice the
raw channels `[0, raw_depth)`. -/
def get_image_channels_t (raw_depth : ℕ) : ImgTransform :=
  fun img _ g => (sliceChannels img 0 raw_depth, g)

/-- `img_standardize`: per-image standardization, elementwise with a scalar
kernel depending on the whole image. -/
def img_standardize_t (K : TFKernels) : ImgTransform :=
  fun img _ g => (mapVals (K.std_k img) img, g)

/-- `apply_random_brightness`: elementwise brightness shift. -/
def random_brightness_t (K : TFKernels) (max_delta : ℚ) : ImgTransform :=
  fun img seed g => (mapVals (K.bright_k max_delta seed) img, g)

/-- `apply_random_saturation`: per-pixel channel-vector transform. -/
def random_saturation_t (K : TFKernels) (low high : ℚ) : ImgTransform :=
  fun img seed g =>
    (img.map (fun row => row.map (K.sat_k low high seed)), g)

/-- `apply_random_contrast`: per-pixel channel-vector transform reading the
whole image for the per-channel means. -/
def random_contrast_t (K : TFKernels) (low high : ℚ) : ImgTransform :=
  fun img seed g =>
    (img.map (fun row => row.map (K.contr_k low high seed img)), g)

/-- The Stage-B photometric ops registered after `get_image_channels`, in
the code's order. -/
def image_pixels_tail (cfg : PipelineConfig) (K : TFKernels) :
    List ImgTransform :=
  (if cfg.apply_whitening then [img_standardize_t K] else [])
  ++ (match cfg.apply_random_brightness with
      | some d => [random_brightness_t K d]
      | none => [])
  ++ (match cfg.apply_random_saturation with
      | some s => [random_saturation_t K (1 - s) (1 + s)]
      | none => [])
  ++ (match cfg.apply_random_contrast with
      | some c0 => [random_contrast_t K (1 - c0) (1 + c0)]
      | none => [])

/-- `_setup_image_transforms`: the Stage-B (raw-channels-only, photometric)
transform list; when a reference exists it starts with
`get_image_channels`. -/
def setup_image_pixels_transforms (cfg : PipelineConfig) (K : TFKernels) :
    List ImgTransform :=
  (if cfg.no_reference = false
    then [get_image_channels_t cfg.single_image_raw_depth] else [])
  ++ image_pixels_tail cfg K

/-- The default post-process `no_op(crop, seed) = identity(crop)`. -/
def no_op (crop : Image Val) (_seed : Seed) : Image Val := crop

/-- The post-process selected by `_setup_image_transforms`: the user
function when given, `no_op` otherwise. -/
def post_process_fn (cfg : PipelineConfig) : Image Val → Seed → Image Val :=
  match cfg.crops_postprocess with
  | some f => f
  | none => no_op

/-- Run a transform chain over an image, threading the same per-crop seed to
every transform and the global stream through them in order. -/
def applyChain (ts : List ImgTransform) (img : Image Val) (seed : Seed)
    (g : GRand) : Image Val × GRand :=
  ts.foldl (fun p t => t p.1 seed p.2) (img, g)

/-- The Stage-A result of `_image_transform`: all label-preserving
transforms applied to the whole composite. -/
def stageA_result (cfg : PipelineConfig) (img : Image Val) (seed : Seed)
    (g : GRand) : Image Val × GRand :=
  applyChain (setup_image_label_transforms cfg) img seed g

/-- Models `_image_transform`: Stage A on the whole composite; if a
reference exists, slice and dtype-cast the reference channels of the Stage-A
result, run Stage B (whose head slices the raw channels), dtype-cast and
re-concatenate with the reference, and finally apply the post-process
function.  Every transform receives the same per-crop seed pair. -/
def image_transform (cfg : PipelineConfig) (K : TFKernels)
    (input_image : Image Val) (seed : Seed) (g : GRand) :
    Image Val × GRand :=
  let a := stageA_result cfg input_image seed g
  if cfg.no_reference then
    let b := applyChain (setup_image_pixels_transforms cfg K) a.1 seed a.2
    (post_process_fn cfg b.1 seed, b.2)
  else
    let reference_img := mapVals K.cast_k
      (sliceChannels a.1 cfg.single_image_raw_depth
        cfg.single_image_reference_depth)
    let b := applyChain (setup_image_pixels_transforms cfg K) a.1 seed a.2
    (post_process_fn cfg
      (concatChannels (mapVals K.cast_k b.1) reference_img) seed, b.2)

/-- A configuration with shuffling disabled and random 90° rotation as the
only enabled augmentation, in unsupervised (no-reference) mode. -/
def cfg_rot90_only : PipelineConfig :=
  { shuffle_samples := false
    patch_ratio_vs_input := 1/5
    max_patches_per_image := 10
    image_area_coverage_factor := 1
    apply_random_flip_left_right := false
    apply_random_flip_up_down := false
    apply_random_rot90 := true
    apply_random_brightness := none
    apply_random_saturation := none
    apply_random_contrast := none
    apply_whitening := false
    balance_classes_distribution := false
    field_of_view := 0
    manage_nan_values := NanMode.noMode
    no_reference := true
    single_image_raw_depth := 1
    single_image_reference_depth := 0
    crops_postprocess := none
    seed := 42 }

/-- Identity kernels for the photometric library ops (their content is
irrelevant here: none of them is enabled in `cfg_rot90_only`). -/
def trivial_kernels : TFKernels :=
  { std_k := fun _ v => v
    bright_k := fun _ _ v => v
    sat_k := fun _ _ _ px => px
    contr_k := fun _ _ _ _ px => px
    cast_k := fun v => v }

/-- A 2×2 single-channel crop with four distinct values. -/
def crop_2x2 : Image Val :=
  [[[some 1], [some 2]], [[some 3], [some 4]]]

/-- C2 is violated by `random_rot90`: with shuffling disabled, the same
master-seed-derived per-crop seed pair and the same configuration (random
rot90 enabled), two runs whose process-global stateful RNG streams differ
produce different transformed crops — `random_rot90` draws its rotation
count from an unseeded `tf.random.uniform` instead of the shared per-crop
seed, so equal master seeds do not make the runs byte-identical. -/
theorem rot90_breaks_seed_determinism :
    (image_transform cfg_rot90_only trivial_kernels crop_2x2 (42, 0)
        (fun _ => 0)).1
      ≠ (image_transform cfg_rot90_only trivial_kernels crop_2x2 (42, 0)
        (fun _ => 1)).1 := by
  decide

/-- Is a value NaN. -/
def is_nan (v : Val) : Bool := v.isNone

/-- Does the crop contain a NaN anywhere in any channel. -/
def has_nan (crop : Image Val) : Bool :=
  crop.any (fun row => row.any (fun px => px.any is_nan))

/-- Models the `has_no_nans` crop filter:
`tf.logical_not(tf.reduce_any(tf.math.is_nan(crop)))`. -/
def has_no_nans (crop : Image Val) : Bool := !(has_nan crop)

/-- Models `_setup_crop_filters`: starting from the user's additional
filters, insert the entropy filter at the front when class balancing is on
and a reference exists, then insert the NaN filter at the front when
`manage_nan_values == 'avoid'`.  The entropy predicate is passed as the
boolean stand-in `balance_entropy_b` for the real-valued
`balance_classes_entropy` comparison. -/
def setup_crop_filters (cfg : PipelineConfig)
    (balance_entropy_b : Image Val → Bool)
    (additionnal_filters : List (Image Val → Bool)) :
    List (Image Val → Bool) :=
  let fs1 :=
    if cfg.balance_classes_distribution = true ∧ cfg.no_reference = false
    then balance_entropy_b :: additionnal_filters
    else additionnal_filters
  if cfg.manage_nan_values = NanMode.avoid then has_no_nans :: fs1 else fs1

/-- Replacing NaN by zeros leaves no NaN behind. -/
theorem has_nan_replace_nans_by_zeros (crop : Image Val) :
    has_nan (replace_nans_by_zeros crop) = false := by
  have hval : ∀ v : Val, is_nan (nan_to_zero v) = false := by
    intro v
    cases v <;> rfl
  simp [has_nan, replace_nans_by_zeros, mapVals, List.any_map,
    Function.comp, hval]

/-- C7: under `manage_nan_values = 'avoid'` the filter chain rejects every
crop containing a NaN (for any additional filters and any balancing
setting); under `manage_nan_values = 'zeros'` no NaN filter is installed —
the chain built from the configuration accepts the crop — and the Stage-A
transform chain replaces every NaN of the crop by 0, leaving no NaN in the
streamed sample. -/
theorem nan_modes_reject_or_zero_fill (crop : Image Val) (seed : Seed)
    (g : GRand) (cfgA cfgZ : PipelineConfig) (ef : Image Val → Bool)
    (extra : List (Image Val → Bool))
    (hA : cfgA.manage_nan_values = NanMode.avoid)
    (hZ : cfgZ.manage_nan_values = NanMode.zeros)
    (hZlr : cfgZ.apply_random_flip_left_right = false)
    (hZud : cfgZ.apply_random_flip_up_down = false)
    (hZrot : cfgZ.apply_random_rot90 = false)
    (hZbal : cfgZ.balance_classes_distribution = false)
    (hnan : has_nan crop = true) :
    crop_filter (setup_crop_filters cfgA ef extra) crop = false ∧
      crop_filter (setup_crop_filters cfgZ ef []) crop = true ∧
      (applyChain (setup_image_label_transforms cfgZ) crop seed g).1
        = replace_nans_by_zeros crop ∧
      has_nan ((applyChain (setup_image_label_transforms cfgZ)
          crop seed g).1) = false := by
  have h3 : (applyChain (setup_image_label_transforms cfgZ) crop seed g).1
      = replace_nans_by_zeros crop := by
    simp [setup_image_label_transforms, hZ, hZlr, hZud, hZrot, applyChain,
      replace_nans_by_zeros_t]
  refine ⟨?_, ?_, h3, ?_⟩
  · simp [crop_filter_eq_all, setup_crop_filters, hA, has_no_nans, hnan]
  · simp [setup_crop_filters, hZ, hZbal, crop_filter]
  · rw [h3, has_nan_replace_nans_by_zeros]

/-- A configuration with NaN mode `'avoid'`. -/
def cfg_nan_avoid : PipelineConfig :=
  { shuffle_samples := true
    patch_ratio_vs_input := 1/5
    max_patches_per_image := 10
    image_area_coverage_factor := 1
    apply_random_flip_left_right := false
    apply_random_flip_up_down := false
    apply_random_rot90 := false
    apply_random_brightness := none
    apply_random_saturation := none
    apply_random_contrast := none
    apply_whitening := false
    balance_classes_distribution := false
    field_of_view := 0
    manage_nan_values := NanMode.avoid
    no_reference := false
    single_image_raw_depth := 1
    single_image_reference_depth := 0
    crops_postprocess := none
    seed := 42 }

/-- A configuration with NaN mode `'zeros'` and no other Stage-A
augmentations. -/
def cfg_nan_zeros : PipelineConfig :=
  { shuffle_samples := true
    patch_ratio_vs_input := 1/5
    max_patches_per_image := 10
    image_area_coverage_factor := 1
    apply_random_flip_left_right := false
    apply_random_flip_up_down := false
    apply_random_rot90 := false
    apply_random_brightness := none
    apply_random_saturation := none
    apply_random_contrast := none
    apply_whitening := false
    balance_classes_distribution := false
    field_of_view := 0
    manage_nan_values := NanMode.zeros
    no_reference := false
    single_image_raw_depth := 1
    single_image_reference_depth := 0
    crops_postprocess := none
    seed := 42 }

/-- Witness for C7 on a 1×1 single-channel crop holding one NaN. -/
theorem nan_modes_reject_or_zero_fill_witness :
    crop_filter (setup_crop_filters cfg_nan_avoid (fun _ => true) [])
        [[[none]]] = false ∧
      crop_filter (setup_crop_filters cfg_nan_zeros (fun _ => true) [])
        [[[none]]] = true ∧
      (applyChain (setup_image_label_transforms cfg_nan_zeros)
          [[[none]]] (0, 0) (fun _ => 0)).1
        = replace_nans_by_zeros [[[none]]] ∧
      has_nan ((applyChain (setup_image_label_transforms cfg_nan_zeros)
          [[[none]]] (0, 0) (fun _ => 0)).1) = false :=
  nan_modes_reject_or_zero_fill [[[none]]] (0, 0) (fun _ => 0)
    cfg_nan_avoid cfg_nan_zeros (fun _ => true) []
    rfl rfl rfl rfl rfl rfl rfl

/-!  Shape lemmas for the transform chains, leading to the Stage-B frame
property (the photometric chain acts only on the raw channel slice). -/

/-- A rectangular image with some positive height and width and channel
count `d`. -/
def chanRect (d : ℕ) (img : Image Val) : Prop :=
  ∃ h w, 0 < h ∧ 0 < w ∧ rect img h w d

/-- Mapping a length-preserving pixel function preserves the shape. -/
theorem rect_map_rows (f : Pixel → Pixel)
    (hf : ∀ px, (f px).length = px.length) (img : Image Val) (h w d : ℕ)
    (hr : rect img h w d) :
    rect (img.map (fun row => row.map f)) h w d := by
  obtain ⟨hh, hww, hd⟩ := hr
  refine ⟨by simpa using hh, ?_, ?_⟩
  · intro row hrow
    obtain ⟨r0, hr0, rfl⟩ := List.mem_map.mp hrow
    simpa using hww r0 hr0
  · intro row hrow px hpx
    obtain ⟨r0, hr0, rfl⟩ := List.mem_map.mp hrow
    obtain ⟨p0, hp0, rfl⟩ := List.mem_map.mp hpx
    rw [hf p0]
    exact hd r0 hr0 p0 hp0

/-- Elementwise value maps preserve the shape. -/
theorem rect_mapVals (f : Val → Val) (img : Image Val) (h w d : ℕ)
    (hr : rect img h w d) : rect (mapVals f img) h w d :=
  rect_map_rows (fun px => px.map f) (fun px => px.length_map f) img h w d hr

/-- Left-right flip preserves the shape. -/
theorem rect_flip_left_right (img : Image Val) (h w d : ℕ)
    (hr : rect img h w d) : rect (flip_left_right img) h w d := by
  obtain ⟨hh, hww, hd⟩ := hr
  refine ⟨by simpa [flip_left_right] using hh, ?_, ?_⟩
  · intro row hrow
    obtain ⟨r0, hr0, rfl⟩ := List.mem_map.mp hrow
    simpa using hww r0 hr0
  · intro row hrow px hpx
    obtain ⟨r0, hr0, rfl⟩ := List.mem_map.mp hrow
    exact hd r0 hr0 px (List.mem_reverse.mp hpx)

/-- Up-down flip preserves the shape. -/
theorem rect_flip_up_down (img : Image Val) (h w d : ℕ)
    (hr : rect img h w d) : rect (flip_up_down img) h w d := by
  obtain ⟨hh, hww, hd⟩ := hr
  refine ⟨by simpa [flip_up_down] using hh, ?_, ?_⟩
  · intro row hrow
    exact hww row (List.mem_reverse.mp hrow)
  · intro row hrow px hpx
    exact hd row (List.mem_reverse.mp hrow) px hpx

/-- Transposition swaps height and width and keeps the channel count. -/
theorem rect_transposeRect (img : Image Val) (h w d : ℕ) (hh : 0 < h)
    (hr : rect img h w d) : rect (transposeRect img) w h d := by
  obtain ⟨hlen, hww, hd⟩ := hr
  cases img with
  | nil =>
      exfalso
      simp at hlen
      omega
  | cons r rest =>
      have hrw : r.length = w := hww r (by simp)
      unfold transposeRect
      refine ⟨by simpa using hrw, ?_, ?_⟩
      · intro row hrow
        obtain ⟨j, _, rfl⟩ := List.mem_map.mp hrow
        simpa using hlen
      · intro row hrow px hpx
        obtain ⟨j, hj, rfl⟩ := List.mem_map.mp hrow
        rw [List.mem_range] at hj
        obtain ⟨row0, hrow0, rfl⟩ := List.mem_map.mp hpx
        have hjw : j < row0.length := by
          rw [hww row0 hrow0, ← hrw]
          exact hj
        have hget : row0.getD j [] = row0.get ⟨j, hjw⟩ := by
          simp [List.getD_eq_getElem?_getD, List.getElem?_eq_getElem hjw]
        rw [hget]
        exact hd row0 hrow0 _ (List.get_mem row0 j hjw)

/-- One quarter rotation keeps rectangularity and the channel count. -/
theorem chanRect_rot90_ccw (d : ℕ) (img : Image Val)
    (hr : chanRect d img) : chanRect d (rot90_ccw img) := by
  obtain ⟨h, w, hh, hw, hr⟩ := hr
  have ht := rect_transposeRect img h w d hh hr
  obtain ⟨hlen, hww, hd⟩ := ht
  refine ⟨w, h, hw, hh, ?_, ?_, ?_⟩
  · simpa [rot90_ccw] using hlen
  · intro row hrow
    exact hww row (List.mem_reverse.mp hrow)
  · intro row hrow px hpx
    exact hd row (List.mem_reverse.mp hrow) px hpx

/-- Any power of the quarter rotation keeps rectangularity. -/
theorem chanRect_rot90_pow (k d : ℕ) (img : Image Val)
    (hr : chanRect d img) : chanRect d (rot90_pow k img) := by
  induction k generalizing img with
  | zero => simpa [rot90_pow] using hr
  | succ t ih => exact ih _ (chanRect_rot90_ccw d img hr)

/-- Unfolding one chain step. -/
theorem applyChain_cons (t : ImgTransform) (ts : List ImgTransform)
    (img : Image Val) (seed : Seed) (g : GRand) :
    applyChain (t :: ts) img seed g
      = applyChain ts (t img seed g).1 seed (t img seed g).2 := rfl

/-- A chain of transforms that each preserve a property preserves it. -/
theorem applyChain_preserves (P : Image Val → Prop)
    (ts : List ImgTransform)
    (hts : ∀ t ∈ ts, ∀ img seed g, P img → P (t img seed g).1)
    (img : Image Val) (seed : Seed) (g : GRand) (h : P img) :
    P (applyChain ts img seed g).1 := by
  induction ts generalizing img g with
  | nil => simpa [applyChain] using h
  | cons t ts ih =>
      rw [applyChain_cons]
      exact ih (fun t' ht' => hts t' (List.mem_cons_of_mem t ht')) _ _
        (hts t (List.mem_cons_self t ts) img seed g h)

/-- Membership in a single-element conditional list. -/
theorem mem_if_singleton {α : Type} {c : Prop} [Decidable c] {x t : α}
    (h : t ∈ (if c then [x] else [])) : t = x := by
  split at h <;> simp_all

/-- Every Stage-A transform keeps the crop rectangular with the same channel
count. -/
theorem label_transforms_preserve_chanRect (cfg : PipelineConfig) (d : ℕ) :
    ∀ t ∈ setup_image_label_transforms cfg, ∀ img seed g,
      chanRect d img → chanRect d (t img seed g).1 := by
  intro t ht img seed g hr
  simp only [setup_image_label_transforms, List.mem_append] at ht
  rcases ht with ((h1 | h2) | h3) | h4
  · rw [mem_if_singleton h1]
    obtain ⟨h, w, hh, hw, hr⟩ := hr
    exact ⟨h, w, hh, hw,
      rect_mapVals nan_to_zero img h w d hr⟩
  · rw [mem_if_singleton h2]
    obtain ⟨h, w, hh, hw, hr⟩ := hr
    refine ⟨h, w, hh, hw, ?_⟩
    simp only [stateless_random_flip_left_right_t]
    split
    · exact rect_flip_left_right img h w d hr
    · exact hr
  · rw [mem_if_singleton h3]
    obtain ⟨h, w, hh, hw, hr⟩ := hr
    refine ⟨h, w, hh, hw, ?_⟩
    simp only [stateless_random_flip_up_down_t]
    split
    · exact rect_flip_up_down img h w d hr
    · exact hr
  · rw [mem_if_singleton h4]
    exact chanRect_rot90_pow _ d img hr

/-- The Stage-A result of a rectangular composite is rectangular with the
same channel count. -/
theorem stageA_chanRect (cfg : PipelineConfig) (d : ℕ) (img : Image Val)
    (seed : Seed) (g : GRand) (hr : chanRect d img) :
    chanRect d (stageA_result cfg img seed g).1 :=
  applyChain_preserves (chanRect d) (setup_image_label_transforms cfg)
    (label_transforms_preserve_chanRect cfg d) img seed g hr

/-- Slicing channels of a rectangular image yields a rectangular image with
`min len (d - b)` channels. -/
theorem rect_sliceChannels (img : Image Val) (h w d b len : ℕ)
    (hr : rect img h w d) :
    rect (sliceChannels img b len) h w (min len (d - b)) := by
  obtain ⟨hh, hww, hd⟩ := hr
  refine ⟨by simpa [sliceChannels] using hh, ?_, ?_⟩
  · intro row hrow
    obtain ⟨r0, hr0, rfl⟩ := List.mem_map.mp hrow
    simpa using hww r0 hr0
  · intro row hrow px hpx
    obtain ⟨r0, hr0, rfl⟩ := List.mem_map.mp hrow
    obtain ⟨p0, hp0, rfl⟩ := List.mem_map.mp hpx
    have := hd r0 hr0 p0 hp0
    simp [List.length_take, List.length_drop, this]

/-- Every Stage-B tail op (standardization, brightness, saturation,
contrast) preserves the exact shape, given the pixel-kernel length
contracts. -/
theorem pixels_tail_preserve_rect (cfg : PipelineConfig) (K : TFKernels)
    (h w d : ℕ)
    (hsat : ∀ low high s px, (K.sat_k low high s px).length = px.length)
    (hcon : ∀ low high s im px,
      (K.contr_k low high s im px).length = px.length) :
    ∀ t ∈ image_pixels_tail cfg K, ∀ img seed g,
      rect img h w d → rect (t img seed g).1 h w d := by
  intro t ht img seed g hr
  simp only [image_pixels_tail, List.mem_append] at ht
  rcases ht with ((h1 | h2) | h3) | h4
  · rw [mem_if_singleton h1]
    exact rect_mapVals (K.std_k img) img h w d hr
  · rcases hb : cfg.apply_random_brightness with _ | dlt
    all_goals rw [hb] at h2
    · simp at h2
    · simp only [List.mem_singleton] at h2
      rw [h2]
      exact rect_mapVals (K.bright_k dlt seed) img h w d hr
  · rcases hs : cfg.apply_random_saturation with _ | s
    all_goals rw [hs] at h3
    · simp at h3
    · simp only [List.mem_singleton] at h3
      rw [h3]
      exact rect_map_rows (K.sat_k (1 - s) (1 + s) seed)
        (fun px => hsat (1 - s) (1 + s) seed px) img h w d hr
  · rcases hc : cfg.apply_random_contrast with _ | c0
    all_goals rw [hc] at h4
    · simp at h4
    · simp only [List.mem_singleton] at h4
      rw [h4]
      exact rect_map_rows (K.contr_k (1 - c0) (1 + c0) seed img)
        (fun px => hcon (1 - c0) (1 + c0) seed img px) img h w d hr

/-- Dropping the raw prefix of the concatenated pixels and keeping the
reference part recovers the reference pixels. -/
theorem zip_append_slice (rawD refD : ℕ) :
    ∀ (b r : List Pixel), b.length = r.length →
      (∀ px ∈ b, px.length = rawD) → (∀ px ∈ r, px.length = refD) →
      (List.zipWith (fun p q => p ++ q) b r).map
          (fun px => (px.drop rawD).take refD) = r := by
  intro b
  induction b with
  | nil =>
      intro r hlen _ _
      cases r with
      | nil => rfl
      | cons q r' => simp at hlen
  | cons p b ih =>
      intro r hlen hb hr
      cases r with
      | nil => simp at hlen
      | cons q r' =>
          simp only [List.zipWith_cons_cons, List.map_cons]
          congr 1
          · have hp : p.length = rawD := hb p (by simp)
            have hq : q.length = refD := hr q (by simp)
            rw [← hp, List.drop_left, ← hq, List.take_length]
          · exact ih r' (by simpa using hlen)
              (fun px hpx => hb px (by simp [hpx]))
              (fun px hpx => hr px (by simp [hpx]))

/-- Slicing the reference channels out of the channel concatenation of a
raw-depth image and a reference-depth image of the same spatial shape
recovers the reference image. -/
theorem sliceChannels_concatChannels (rawD refD : ℕ) :
    ∀ (B R : Image Val) (h w : ℕ), rect B h w rawD → rect R h w refD →
      sliceChannels (concatChannels B R) rawD refD = R := by
  intro B
  induction B with
  | nil =>
      intro R h w hB hR
      obtain ⟨hBl, _, _⟩ := hB
      obtain ⟨hRl, _, _⟩ := hR
      have hR0 : R.length = 0 := by simp at hBl; omega
      rw [List.length_eq_zero.mp hR0]
      rfl
  | cons b B ih =>
      intro R h w hB hR
      obtain ⟨hBl, hBw, hBd⟩ := hB
      obtain ⟨hRl, hRw, hRd⟩ := hR
      cases R with
      | nil =>
          exfalso
          simp at hBl hRl
          omega
      | cons r R' =>
          simp only [concatChannels, List.zipWith_cons_cons, sliceChannels,
            List.map_cons]
          congr 1
          · exact zip_append_slice rawD refD b r
              (by rw [hBw b (by simp), hRw r (by simp)])
              (fun px hpx => hBd b (by simp) px hpx)
              (fun px hpx => hRd r (by simp) px hpx)
          · have hlen : R'.length = B.length := by
              simp at hBl hRl
              omega
            have hB' : rect B B.length w rawD :=
              ⟨rfl, fun row hrow => hBw row (by simp [hrow]),
                fun row hrow => hBd row (by simp [hrow])⟩
            have hR' : rect R' B.length w refD :=
              ⟨hlen, fun row hrow => hRw row (by simp [hrow]),
                fun row hrow => hRd row (by simp [hrow])⟩
            exact ih R' B.length w hB' hR'

/-- C9: with a reference channel present, the Stage-B photometric transforms
(standardization, brightness, saturation, contrast) act only on the
raw-channel slice: the reference channels of the transformed crop — the
post-process step being the identity `no_op` when no user function is
configured — equal the reference channels of the Stage-A result, unchanged
by Stage B up to the configured dtype cast, re-concatenated before the
post-process function applies. -/
theorem stageB_acts_only_on_raw_channels (cfg : PipelineConfig)
    (K : TFKernels) (img : Image Val) (seed : Seed) (g : GRand) (h w : ℕ)
    (hnoref : cfg.no_reference = false)
    (hpost : cfg.crops_postprocess = none)
    (hh : 0 < h) (hw : 0 < w)
    (hrect : rect img h w
      (cfg.single_image_raw_depth + cfg.single_image_reference_depth))
    (hsat : ∀ low high s px, (K.sat_k low high s px).length = px.length)
    (hcon : ∀ low high s im px,
      (K.contr_k low high s im px).length = px.length) :
    sliceChannels (image_transform cfg K img seed g).1
        cfg.single_image_raw_depth cfg.single_image_reference_depth
      = mapVals K.cast_k
          (sliceChannels (stageA_result cfg img seed g).1
            cfg.single_image_raw_depth cfg.single_image_reference_depth) := by
  obtain ⟨ha, wa, hha, hwa, hrA⟩ :=
    stageA_chanRect cfg _ img seed g ⟨h, w, hh, hw, hrect⟩
  have hsetup : setup_image_pixels_transforms cfg K
      = get_image_channels_t cfg.single_image_raw_depth
        :: image_pixels_tail cfg K := by
    simp [setup_image_pixels_transforms, hnoref]
  have hchain :
      applyChain (setup_image_pixels_transforms cfg K)
          (stageA_result cfg img seed g).1 seed
          (stageA_result cfg img seed g).2
        = applyChain (image_pixels_tail cfg K)
            (sliceChannels (stageA_result cfg img seed g).1 0
              cfg.single_image_raw_depth) seed
            (stageA_result cfg img seed g).2 := by
    rw [hsetup, applyChain_cons]
    rfl
  have hslice0 : rect (sliceChannels (stageA_result cfg img seed g).1 0
      cfg.single_image_raw_depth) ha wa cfg.single_image_raw_depth := by
    have hs := rect_sliceChannels _ ha wa _ 0 cfg.single_image_raw_depth hrA
    have hmin : min cfg.single_image_raw_depth
        ((cfg.single_image_raw_depth + cfg.single_image_reference_depth) - 0)
        = cfg.single_image_raw_depth := by omega
    rwa [hmin] at hs
  have hb : rect (applyChain (image_pixels_tail cfg K)
      (sliceChannels (stageA_result cfg img seed g).1 0
        cfg.single_image_raw_depth) seed
      (stageA_result cfg img seed g).2).1 ha wa
      cfg.single_image_raw_depth :=
    applyChain_preserves _ _
      (pixels_tail_preserve_rect cfg K ha wa _ hsat hcon) _ _ _ hslice0
  have hrefrect : rect (mapVals K.cast_k
      (sliceChannels (stageA_result cfg img seed g).1
        cfg.single_image_raw_depth cfg.single_image_reference_depth)) ha wa
      cfg.single_image_reference_depth := by
    have hs := rect_sliceChannels _ ha wa _ cfg.single_image_raw_depth
      cfg.single_image_reference_depth hrA
    have hmin : min cfg.single_image_reference_depth
        ((cfg.single_image_raw_depth + cfg.single_image_reference_depth)
          - cfg.single_image_raw_depth)
        = cfg.single_image_reference_depth := by omega
    rw [hmin] at hs
    exact rect_mapVals _ _ _ _ _ hs
  simp only [image_transform, hnoref, Bool.false_eq_true, if_false,
    post_process_fn, hpost, no_op]
  rw [hchain]
  exact sliceChannels_concatChannels _ _ _ _ ha wa
    (rect_mapVals _ _ _ _ _ hb) hrefrect

/-- A supervised configuration: one raw channel, one reference channel, no
user post-process. -/
def cfg_with_reference : PipelineConfig :=
  { shuffle_samples := true
    patch_ratio_vs_input := 1/5
    max_patches_per_image := 10
    image_area_coverage_factor := 1
    apply_random_flip_left_right := true
    apply_random_flip_up_down := false
    apply_random_rot90 := false
    apply_random_brightness := some (1/2)
    apply_random_saturation := none
    apply_random_contrast := none
    apply_whitening := true
    balance_classes_distribution := false
    field_of_view := 0
    manage_nan_values := NanMode.noMode
    no_reference := false
    single_image_raw_depth := 1
    single_image_reference_depth := 1
    crops_postprocess := none
    seed := 42 }

/-- Witness for C9 on a 1×1 crop with one raw and one reference channel. -/
theorem stageB_acts_only_on_raw_channels_witness :
    sliceChannels (image_transform cfg_with_reference trivial_kernels
        [[[some 1, some 2]]] (0, 0) (fun _ => 0)).1
        cfg_with_reference.single_image_raw_depth
        cfg_with_reference.single_image_reference_depth
      = mapVals trivial_kernels.cast_k
          (sliceChannels (stageA_result cfg_with_reference
              [[[some 1, some 2]]] (0, 0) (fun _ => 0)).1
            cfg_with_reference.single_image_raw_depth
            cfg_with_reference.single_image_reference_depth) :=
  stageB_acts_only_on_raw_channels cfg_with_reference trivial_kernels
    [[[some 1, some 2]]] (0, 0) (fun _ => 0) 1 1
    rfl rfl (by decide) (by decide) (by simp [rect, cfg_with_reference])
    (fun _ _ _ _ => rfl) (fun _ _ _ _ _ => rfl)

/-!  Construction (`__init__`) and the full-frame pipeline branch
(`_create_data_pipeline`, `_whiten_sample`). -/

/-- Python `int()` of a float: truncation toward zero. -/
def py_int (q : ℚ) : ℤ := if 0 ≤ q then ⌊q⌋ else ⌈q⌉

/-- The geometry fields derived by `__init__` from `patch_ratio_vs_input`,
`max_patches_per_image` and the probe image height. -/
structure GeometrySetup where
  patch_ratio_vs_input : ℚ
  max_patches_per_image : ℤ
  patchSize : ℚ
  full_frame_mode : Bool

/-- Models the geometry part of `__init__`:

    if patch_ratio_vs_input==1 or patch_ratio_vs_input<0:
        self.patch_ratio_vs_input=1 ; self.max_patches_per_image=1
    if patch_ratio_vs_input >1:
        self.patchSize=patch_ratio_vs_input
        self.patch_ratio_vs_input=float(patch_ratio_vs_input)/float(raw0.shape[0])
    else:
        self.patchSize=int(raw0.shape[0]*patch_ratio_vs_input)
    self.full_frame_mode=self.patch_ratio_vs_input==self.max_patches_per_image==1 -/
def init_geometry (patch_ratio_vs_input : ℚ) (max_patches_per_image : ℤ)
    (raw0_height : ℕ) : GeometrySetup :=
  let r1 : ℚ :=
    if patch_ratio_vs_input = 1 ∨ patch_ratio_vs_input < 0 then 1
    else patch_ratio_vs_input
  let m1 : ℤ :=
    if patch_ratio_vs_input = 1 ∨ patch_ratio_vs_input < 0 then 1
    else max_patches_per_image
  let ps : ℚ :=
    if 1 < patch_ratio_vs_input then patch_ratio_vs_input
    else ((py_int ((raw0_height : ℚ) * patch_ratio_vs_input) : ℤ) : ℚ)
  let r2 : ℚ :=
    if 1 < patch_ratio_vs_input
    then patch_ratio_vs_input / (raw0_height : ℚ) else r1
  { patch_ratio_vs_input := r2
    max_patches_per_image := m1
    patchSize := ps
    full_frame_mode := decide (r2 = (m1 : ℚ)) && decide (m1 = 1) }

/-- A Python runtime error surfaced by the embedding: reading a local
variable before assignment, or resolving a missing attribute. -/
inductive PyErr
  | unboundLocal
  | attributeError (name : String)
deriving DecidableEq

/-- Models `_whiten_sample`.  The Python local `single_image_channels` is
assigned only inside the `no_reference is False` branch; the
`no_reference is True` branch reads it nevertheless, which Python reports as
an unbound-local-variable error, modelled by `PyErr.unboundLocal`. -/
def whiten_sample (no_reference : Bool) (raw_depth ref_depth : ℕ)
    (K : TFKernels) (sample : Image Val) : Except PyErr (Image Val) :=
  let single_image_channels? : Option (Image Val) :=
    if no_reference = false then some (sliceChannels sample 0 raw_depth)
    else none
  if no_reference = false then
    match single_image_channels? with
    | some single_image_channels =>
        let reference_img :=
          mapVals K.cast_k (sliceChannels sample raw_depth ref_depth)
        let raw_sample :=
          mapVals (K.std_k single_image_channels) single_image_channels
        Except.ok (concatChannels (mapVals K.cast_k raw_sample) reference_img)
    | none => Except.error PyErr.unboundLocal
  else
    match single_image_channels? with
    | some single_image_channels =>
        Except.ok (mapVals (K.std_k single_image_channels)
          single_image_channels)
    | none => Except.error PyErr.unboundLocal

/-- The method names defined in the body of
`FileListProcessor_Semantic_Segmentation`.  The full-frame branch of
`_create_data_pipeline` maps `self._load_raw_images_from_filenames` over
the filename dataset, but that name is NOT among them — the class only
defines `_setup_load_raw_images_from_filenames`, which assigns the separate
`image_loading_fn` attribute — and no instance attribute of that name is
ever assigned either, so the lookup raises `AttributeError`. -/
def class_method_names : List String :=
  ["_whiten_sample", "_setup_load_raw_ref_images_from_separate_files",
   "_setup_load_raw_ref_images_from_single_file", "_generate_crops",
   "_setup_crop_filters", "_crop_filter", "_setup_image_transforms",
   "_image_transform", "_create_dataset_filenames",
   "_setup_load_raw_images_from_filenames", "_create_data_pipeline",
   "get_config"]

/-- Models the sample production set up by `_create_data_pipeline`,
returning the per-descriptor sample function when the pipeline graph can be
built.  The full-frame branch first resolves the attribute
`_load_raw_images_from_filenames` on the instance; since neither the class
nor the instance defines that name, building a full-frame pipeline fails
with `AttributeError` before any sample is produced (and construction,
which calls this method, fails with it).  Only the non-full-frame branch
runs the per-crop machinery (`_generate_crops`, filters). -/
def create_data_pipeline (full_frame_mode apply_whitening : Bool)
    (whiten : Image Val → Except PyErr (Image Val))
    (generate_crops : Image Val → List (Image Val)) :
    Except PyErr (Image Val → List (Except PyErr (Image Val))) :=
  if full_frame_mode then
    if class_method_names.contains "_load_raw_images_from_filenames" then
      Except.ok (fun img =>
        if apply_whitening then [whiten img] else [Except.ok img])
    else
      Except.error (PyErr.attributeError "_load_raw_images_from_filenames")
  else Except.ok (fun img => (generate_crops img).map Except.ok)

/-- The `additionnal_filters` constructor argument: `None` (normalized to an
empty list), a Python list, or any other value. -/
inductive FiltersArg
  | noneArg
  | listArg
  | nonListArg
deriving DecidableEq

/-- The `filelist_reference_data` mode: `None` (reference embedded as the
last channel), a list of paths, or `-1` (no reference). -/
inductive RefMode
  | embeddedRef
  | pairList
  | noRef
deriving DecidableEq

/-- Whether construction succeeded. -/
def except_is_ok {ε α : Type} : Except ε α → Bool
  | Except.ok _ => true
  | Except.error _ => false

/-- The field-of-view parity check of `__init__`, performed after the probe
read and geometry setup but still before any pipeline graph is built. -/
def field_of_view_check (field_of_view : ℤ) : Except String Unit :=
  if field_of_view % 2 = 0 ∧ field_of_view ≠ 0
  then Except.error "field_of_view must be odd or 0"
  else Except.ok ()

/-- Models the fail-fast validation sequence of `__init__`, in the code's
order: non-positive coverage factor; non-list `additionnal_filters` (a
`None` argument was already normalized to the empty list and passes); in
separate raw/reference mode, mismatched probe pixel sizes, then an
unsupported raw shape (rank below 2); finally the even non-zero
field-of-view check.  `Except.ok` means every check passed and the pipeline
graph is then built. -/
def init_checks (image_area_coverage_factor : ℚ)
    (additionnal_filters : FiltersArg) (field_of_view : ℤ)
    (ref_mode : RefMode) (raw0_shape ref0_shape : List ℕ) :
    Except String Unit :=
  if image_area_coverage_factor ≤ 0 then
    Except.error "image_area_coverage_factor must be above 0"
  else if additionnal_filters = FiltersArg.nonListArg then
    Except.error "additionnal_filters must be a list of functions"
  else
    match ref_mode with
    | RefMode.pairList =>
        if raw0_shape.getD 0 0 ≠ ref0_shape.getD 0 0
            ∨ raw0_shape.getD 1 0 ≠ ref0_shape.getD 1 0 then
          Except.error "first input files do not have the same pixel size"
        else if 2 ≤ raw0_shape.length then field_of_view_check field_of_view
        else Except.error "input image shape not supported"
    | _ => field_of_view_check field_of_view

/-- C8: construction fails fast — no pipeline is built — whenever the
area-coverage factor is non-positive, or the additional-filters argument is
not a list, or `field_of_view` is even and non-zero, or (in separate
raw/reference mode) the construction-time probe images differ in pixel
dimensions. -/
theorem construction_fails_fast (image_area_coverage_factor : ℚ)
    (additionnal_filters : FiltersArg) (field_of_view : ℤ)
    (ref_mode : RefMode) (raw0_shape ref0_shape : List ℕ)
    (h : image_area_coverage_factor ≤ 0
      ∨ additionnal_filters = FiltersArg.nonListArg
      ∨ (field_of_view % 2 = 0 ∧ field_of_view ≠ 0)
      ∨ (ref_mode = RefMode.pairList
          ∧ (raw0_shape.getD 0 0 ≠ ref0_shape.getD 0 0
            ∨ raw0_shape.getD 1 0 ≠ ref0_shape.getD 1 0))) :
    except_is_ok (init_checks image_area_coverage_factor additionnal_filters
        field_of_view ref_mode raw0_shape ref0_shape) = false := by
  unfold init_checks field_of_view_check except_is_ok
  cases ref_mode <;>
    rcases h with h | h | h | ⟨hm, hd⟩ <;> (repeat' split) <;> simp_all <;>
    (try (split_ifs at * <;> simp_all))

/-- Witness for C8: an even non-zero field of view. -/
theorem construction_fails_fast_witness :
    except_is_ok (init_checks 1 FiltersArg.listArg 2 RefMode.embeddedRef
        [4, 4, 3] []) = false :=
  construction_fails_fast 1 FiltersArg.listArg 2 RefMode.embeddedRef
    [4, 4, 3] [] (Or.inr (Or.inr (Or.inl (by decide))))

/-- Whether `__init__` has assigned `self.fullframe_ref_shape` by the time
it reaches `self.cropSize=self.fullframe_ref_shape`: the embedded-reference
and separate-lists branches assign it, the no-reference branch does not. -/
def fullframe_ref_shape_assigned : RefMode → Bool
  | RefMode.embeddedRef => true
  | RefMode.pairList => true
  | RefMode.noRef => false

/-- Models the crop-size setup at the end of `__init__`: in full-frame mode
it reads `self.fullframe_ref_shape` — an `AttributeError` when that
attribute was never assigned — and otherwise builds the patch shape
`[patchSize, patchSize, raw_depth + reference_depth]`. -/
def init_crop_size (full_frame_mode : Bool) (ref_mode : RefMode)
    (fullframe_ref_shape : List ℕ) (patchSize raw_depth ref_depth : ℕ) :
    Except PyErr (List ℕ) :=
  if full_frame_mode then
    if fullframe_ref_shape_assigned ref_mode then
      Except.ok fullframe_ref_shape
    else Except.error (PyErr.attributeError "fullframe_ref_shape")
  else Except.ok [patchSize, patchSize, raw_depth + ref_depth]

/-- C6 is defeated by a missing method: with `patch_ratio_vs_input = 1` the
constructor does force `max_patches_per_image` to 1 and select full-frame
mode, but the full-frame branch of `_create_data_pipeline` then resolves
the nonexistent attribute `_load_raw_images_from_filenames`, so
construction raises `AttributeError` and no descriptor ever yields a crop —
instead of every descriptor yielding one crop equal to the whole loaded
image. -/
theorem full_frame_mode_loader_missing
    (whiten : Image Val → Except PyErr (Image Val))
    (generate_crops : Image Val → List (Image Val)) :
    (init_geometry 1 10 4).max_patches_per_image = 1 ∧
      (init_geometry 1 10 4).full_frame_mode = true ∧
      create_data_pipeline true false whiten generate_crops
        = Except.error
          (PyErr.attributeError "_load_raw_images_from_filenames") := by
  refine ⟨?_, ?_, ?_⟩
  · norm_num [init_geometry]
  · norm_num [init_geometry]
  · rfl

/-- Counterexample to C10 as stated: the claim's scenario — a pipeline
constructed in no-reference full-frame mode — never comes to exist.
`__init__` reads `self.fullframe_ref_shape` whenever full-frame mode is
selected, but the no-reference branch never assigns it, so this concrete
attempted construction fails with `AttributeError` inside `__init__`,
before `_whiten_sample` could be applied to any sample. -/
theorem no_reference_full_frame_not_constructible :
    init_crop_size true RefMode.noRef [4, 4, 3] 2 1 0
      = Except.error (PyErr.attributeError "fullframe_ref_shape") := rfl

/-- C10 amended: no pipeline can be constructed in no-reference full-frame
mode — `__init__` fails with an attribute error reading the never-assigned
`fullframe_ref_shape` (and the full-frame branch of `_create_data_pipeline`
would fail in turn on the nonexistent `_load_raw_images_from_filenames`
loader, whitening enabled or not); the flaw the claim describes is
nevertheless present in `_whiten_sample` itself: invoked with
`no_reference = True`, it reads the local `single_image_channels`, which is
assigned only in the with-reference branch, and raises an
unbound-local-variable error instead of returning a whitened sample. -/
theorem whiten_no_reference_flaw_unreachable
    (raw_depth ref_depth patchSize : ℕ) (K : TFKernels)
    (sample : Image Val) (fullframe_ref_shape : List ℕ)
    (whiten : Image Val → Except PyErr (Image Val))
    (generate_crops : Image Val → List (Image Val)) :
    init_crop_size true RefMode.noRef fullframe_ref_shape patchSize
        raw_depth ref_depth
      = Except.error (PyErr.attributeError "fullframe_ref_shape") ∧
      create_data_pipeline true true whiten generate_crops
        = Except.error
          (PyErr.attributeError "_load_raw_images_from_filenames") ∧
      whiten_sample true raw_depth ref_depth K sample
        = Except.error PyErr.unboundLocal :=
  ⟨rfl, rfl, rfl⟩
